import Mathlib

/-!
Verification of the extraction and normalization core of `baraj_takip`
(`src/main.py`), a reservoir fill-level and forecast scraper.

Modelling conventions (shallow embedding):
- Python strings are modelled as `List Char` (`Str`).
- Python floats are modelled as exact rationals (`ℚ`): the numeric strings
  this pipeline parses are short decimal literals, whose IEEE-754 rounding
  the spec itself treats as negligible (tolerances of 1e-9).
- `float(s)` is modelled by `pyFloatOfChars`: optional surrounding
  whitespace, optional sign, decimal digits with an optional fraction part
  and an optional exponent part. The exotic forms Python also accepts
  (`inf`, `nan`, underscore digit separators, non-ASCII Unicode digits)
  never arise from the markup this program reads and are out of the model.
- A fallible Python expression is modelled with `Option`; `None` inputs
  (which raise `AttributeError` inside `parse_percentage` and are caught)
  are `Option.none`.
- BeautifulSoup lookups are modelled by their results: an optional found
  node carrying its (stripped) text, an optional enclosing row carrying
  the texts of its aggregate-class cells, and a document as the function
  from selector index to the list of matched elements' texts.
-/

/-- Python strings, modelled as lists of characters. -/
abbrev Str := List Char

/-- ASCII digit test, the `\d` of the regexes and the digits of `float()`. -/
def isDig (c : Char) : Bool := decide (48 ≤ c.toNat) && decide (c.toNat ≤ 57)

/-- Numeric value of a string of ASCII digits (as read by Python `int`). -/
def digitsToNat (ds : Str) : ℕ := ds.foldl (fun a c => 10 * a + (c.toNat - 48)) 0

/-- Python `str.strip()`: drop whitespace from both ends. -/
def pyStrip (cs : Str) : Str :=
  ((cs.dropWhile Char.isWhitespace).reverse.dropWhile Char.isWhitespace).reverse

/-- Exponent suffix of a Python float literal: empty (exponent 0), or
`e`/`E`, an optional sign and at least one digit; `none` if the tail is not
a valid exponent suffix. -/
def pyExpVal (rest : Str) : Option ℤ :=
  match rest with
  | [] => some 0
  | c :: r =>
    if c = 'e' ∨ c = 'E' then
      let p : ℤ × Str :=
        match r with
        | '-' :: rr => (-1, rr)
        | '+' :: rr => (1, rr)
        | rr => (1, rr)
      let ed := p.2.takeWhile isDig
      let r2 := p.2.dropWhile isDig
      if ed.isEmpty ∨ ¬ r2.isEmpty then none
      else some (p.1 * (digitsToNat ed : ℤ))
    else none

/-- Exact rational value of a decimal literal with sign `sgn`, digit string
`ds` (integer and fraction digits concatenated), `fracLen` fraction digits
and exponent `e`, namely `sgn * digits * 10 ^ (e - fracLen)`; built with
`mkRat` so that it evaluates by kernel reduction. -/
def decValue (sgn : ℤ) (ds : Str) (fracLen : ℕ) (e : ℤ) : ℚ :=
  let t : ℤ := e - (fracLen : ℤ)
  if 0 ≤ t then mkRat (sgn * (digitsToNat ds : ℤ) * ((10 ^ t.toNat : ℕ) : ℤ)) 1
  else mkRat (sgn * (digitsToNat ds : ℤ)) (10 ^ (-t).toNat)

/-- Model of Python `float(s)` on the decimal literals this program meets:
optional whitespace, optional sign, `digits [. digits] [exp]` or
`. digits [exp]`; `none` models a raised `ValueError`. -/
def pyFloatOfChars (cs0 : Str) : Option ℚ :=
  let cs := pyStrip cs0
  let p : ℤ × Str :=
    match cs with
    | '-' :: r => (-1, r)
    | '+' :: r => (1, r)
    | r => (1, r)
  let ip := p.2.takeWhile isDig
  let rest1 := p.2.dropWhile isDig
  match rest1 with
  | '.' :: r2 =>
    let fp := r2.takeWhile isDig
    let rest3 := r2.dropWhile isDig
    if ip.isEmpty && fp.isEmpty then none
    else (pyExpVal rest3).map (fun e => decValue p.1 (ip ++ fp) fp.length e)
  | _ =>
    if ip.isEmpty then none else (pyExpVal rest1).map (fun e => decValue p.1 ip 0 e)

/-- Model of `text.replace("%", "")` for the single-character pattern `%`. -/
def removePercent (cs : Str) : Str := cs.filter (fun c => c != '%')

/-- Model of `text.replace(",", ".")` for the single-character pattern `,`. -/
def commaToDot (cs : Str) : Str := cs.map (fun c => if c = ',' then '.' else c)

/-- Model of `value.replace(".", "")` for the single-character pattern `.`. -/
def removeDots (cs : Str) : Str := cs.filter (fun c => c != '.')

/-- The cleaning `parse_percentage` applies before `float()`:
`text.replace("%", "").replace(",", ".").strip()`. -/
def cleanPct (t : Str) : Str := pyStrip (commaToDot (removePercent t))

/-- Model of `parse_percentage(text, default)` from `src/main.py`: strip percent
signs, turn the decimal comma into a point, trim, parse as float; any
failure (`ValueError` from `float`, `AttributeError` from a `None`-like
`text`, both caught) yields `default`. -/
def parse_percentage (text : Option Str) (default : ℚ) : ℚ :=
  match text with
  | none => default
  | some t =>
    match pyFloatOfChars (cleanPct t) with
    | some v => v
    | none => default

example : parse_percentage (some ("73,40%".data)) 0 = mkRat 7340 100 := by decide
example : parse_percentage (some ("73,40%".data)) 0 = 367 / 5 := by
  have h : parse_percentage (some ("73,40%".data)) 0 = mkRat 7340 100 := by decide
  rw [h]; norm_num [Rat.mkRat_eq_div]
example : parse_percentage (some ("".data)) 0 = 0 := by decide
example : parse_percentage (some (" 61.2 ".data)) 7 = mkRat 612 10 := by decide
example : parse_percentage (some ("-1.5e2".data)) 7 = mkRat (-150) 1 := by decide
example : parse_percentage (some ("abc".data)) 7 = 7 := by decide
example : parse_percentage (some ("12e".data)) 7 = 7 := by decide
example : parse_percentage none 7 = 7 := by decide

/-- A located label element together with its enclosing `tr` row, as
`_sum_row` sees it: `parentCells` is `none` when `find_parent("tr")`
returns `None`, otherwise it carries the stripped texts of the row's
`td.damtotaltd` cells in document order.  (A label `span` found by
`soup.find` is a non-empty tag, hence truthy in Python.) -/
structure RowCtx where
  parentCells : Option (List Str)

/-- The normalization `_sum_row` applies to one cell text before `float()`:
`value.replace(".", "").replace(",", ".")`. -/
def normCell (s : Str) : Str := commaToDot (removeDots s)

/-- Contribution of one cell to the row sum: empty cells are skipped, cells
whose normalized text fails to parse are skipped (contribute nothing). -/
def cellContrib (s : Str) : ℚ :=
  if s.isEmpty then 0
  else
    match pyFloatOfChars (normCell s) with
    | some v => v
    | none => 0

/-- The loop body of `_sum_row`: skip empty cell texts, `total += float(…)`
when the normalized text parses, and `continue` on `ValueError`. -/
def cellStep (acc : ℚ) (s : Str) : ℚ :=
  if s.isEmpty then acc
  else
    match pyFloatOfChars (normCell s) with
    | some v => acc + v
    | none => acc

/-- Model of `_sum_row(row)` from `src/main.py`: `0.0` for an absent (or falsy) label
element or an absent enclosing `tr`; otherwise the sum of the parseable
aggregate-class cell values, accumulated left to right as the Python loop
does with `total += float(...)`. -/
def sum_row (row : Option RowCtx) : ℚ :=
  match row with
  | none => 0
  | some r =>
    match r.parentCells with
    | none => 0
    | some cells => cells.foldl cellStep 0

/-- Python `round(q, 2)` rounds half to even; on our exact rationals:
round `q * 100` to the nearest integer, ties to the even integer, and
divide back by 100. -/
def roundHalfEven (q : ℚ) : ℤ :=
  if q - ⌊q⌋ < 1 / 2 then ⌊q⌋
  else if 1 / 2 < q - ⌊q⌋ then ⌊q⌋ + 1
  else if ⌊q⌋ % 2 = 0 then ⌊q⌋ else ⌊q⌋ + 1

/-- Python `round(x, 2)`. -/
def pyRound2 (q : ℚ) : ℚ := (roundHalfEven (q * 100) : ℚ) / 100

/-- The İzmir ratio: `round(kullanilabilir_sum / toplam_sum * 100, 2) if
toplam_sum else 0.0` — the truthiness guard on `toplam_sum` is the
zero test. -/
def izmir_pct (toplam kullanilabilir : ℚ) : ℚ :=
  if toplam = 0 then 0 else pyRound2 (kullanilabilir / toplam * 100)

/-- The DOM lookups of one fill-level pass, as `scrape_levels` reads them
after rendering: for İstanbul, Bursa and Ankara the optional single node
found (carrying its stripped text), for İzmir the two optional label rows
fed to `_sum_row`. -/
structure Pages where
  istNode : Option Str
  burNode : Option Str
  izmToplamRow : Option RowCtx
  izmKullRow : Option RowCtx
  ankNode : Option Str

def istName : Str := "İstanbul".data

def burName : Str := "Bursa".data

def izmName : Str := "İzmir".data

def ankName : Str := "Ankara".data

/-- Model of `scrape_levels()` from `src/main.py`, as a function of the four pages'
lookup results: each single-node source goes through `parse_percentage`
with default `0.0` (a missing node contributes the empty string), İzmir is
the guarded `_sum_row` ratio, and the result dict has exactly the four
city keys in insertion order. -/
def scrape_levels (p : Pages) : List (Str × ℚ) :=
  let ist := parse_percentage (some (p.istNode.getD [])) 0
  let bur := parse_percentage (some (p.burNode.getD [])) 0
  let toplam_sum := sum_row p.izmToplamRow
  let kullanilabilir_sum := sum_row p.izmKullRow
  let izm := izmir_pct toplam_sum kullanilabilir_sum
  let ank := parse_percentage (some (p.ankNode.getD [])) 0
  [(istName, ist), (burName, bur), (izmName, izm), (ankName, ank)]

/-- The fill-level pass in which all four per-source DOM lookups find
nothing. -/
def allMissing : Pages :=
  { istNode := none, burNode := none, izmToplamRow := none
  , izmKullRow := none, ankNode := none }

example : sum_row none = 0 := by decide
example : sum_row (some { parentCells := none }) = 0 := by decide
example :
    List.map cellContrib ["1.234,5".data, "bad".data, "765,0".data] =
      [mkRat 12345 10, 0, mkRat 7650 10] := by decide
example : scrape_levels allMissing =
    [(istName, 0), (burName, 0), (izmName, 0), (ankName, 0)] := by decide

/-- One record of `_parse_accu_15day`'s output list. -/
structure ForecastDay where
  day_index : ℕ
  text : Str
  high_c : Option ℤ
  low_c : Option ℤ
  precip_pct : Option ℤ
deriving DecidableEq

/-- Python `int()` of a matched group `(-?\d{1,2})`: sign times digit value. -/
def mkVal (neg : Bool) (ds : Str) : ℤ :=
  (if neg then -1 else 1) * (digitsToNat ds : ℤ)

/-- Match of the regex `(-?\d{1,2})°` anchored at the head of `cs`, with
the greedy, backtracking semantics of Python `re`: an optional minus, then
two digits if the degree sign follows them, else one digit if the degree
sign follows it; returns the captured value and the characters after the
matched span. -/
def matchDeg (cs : Str) : Option (ℤ × Str) :=
  let p : Bool × Str :=
    match cs with
    | '-' :: r => (true, r)
    | r => (false, r)
  match p.2 with
  | d1 :: c :: tail =>
    if isDig d1 then
      if c = '°' then some (mkVal p.1 [d1], tail)
      else if isDig c then
        match tail with
        | e :: tail2 => if e = '°' then some (mkVal p.1 [d1, c], tail2) else none
        | [] => none
      else none
    else none
  | _ => none

/-- The scan loop of `re.findall(r"(-?\d{1,2})°", text)`: left to right,
non-overlapping, advancing one character past a failed position and past
the whole span of a successful match.  `fuel` bounds the recursion; each
step consumes at least one character, so `cs.length` fuel is enough. -/
def scanDeg : ℕ → Str → List ℤ
  | 0, _ => []
  | _ + 1, [] => []
  | fuel + 1, c :: rest =>
    match matchDeg (c :: rest) with
    | some (v, after) => v :: scanDeg fuel after
    | none => scanDeg fuel rest

/-- Model of `re.findall(r"(-?\d{1,2})°", text)`, each captured group through
`int()`. -/
def findallDeg (cs : Str) : List ℤ := scanDeg cs.length cs

/-- Match of the regex `(\d{1,2})%` anchored at the head of `cs`: two
digits if the percent sign follows them, else one digit if the percent
sign follows it; returns the captured value. -/
def matchPrec (cs : Str) : Option ℕ :=
  match cs with
  | d1 :: c :: tail =>
    if isDig d1 then
      if c = '%' then some (digitsToNat [d1])
      else if isDig c then
        match tail with
        | e :: _ => if e = '%' then some (digitsToNat [d1, c]) else none
        | [] => none
      else none
    else none
  | _ => none

/-- Model of `re.search(r"(\d{1,2})%", text)`: the value of the leftmost match, if
any. -/
def searchPrec : Str → Option ℕ
  | [] => none
  | c :: rest =>
    match matchPrec (c :: rest) with
    | some v => some v
    | none => searchPrec rest

/-- The record `_parse_accu_15day` builds for the card at position `i`
(0-based) with visible text `t`: `day_index = i + 1`, the text truncated
to 200 characters, the first found degree number as high, the second as
low, and the first percent-suffixed number as precipitation. -/
def mkDay (i : ℕ) (t : Str) : ForecastDay :=
  let highs := findallDeg t
  { day_index := i + 1
  , text := t.take 200
  , high_c := highs.get? 0
  , low_c := highs.get? 1
  , precip_pct := (searchPrec t).map (fun n => (n : ℤ)) }

/-- The `enumerate(cards[:15])` loop body applied along the card list,
with `i` the position of the first card. -/
def buildDays : ℕ → List Str → List ForecastDay
  | _, [] => []
  | i, t :: ts => mkDay i t :: buildDays (i + 1) ts

/-- The selector loop of `_parse_accu_15day`: `cards` is overwritten with
each selector's matches in listed order, and the loop breaks at the first
selector with at least 7 matches; with no break, the last selector's
matches (possibly none) are kept.  (`pickCards [] = []` is the loop over
an empty selector list, matching `cards = []` before the loop.) -/
def pickCards {α : Type} : List (List α) → List α
  | [] => []
  | [r] => r
  | r :: s :: rest => if 7 ≤ r.length then r else pickCards (s :: rest)

/-- A forecast document, seen through `bs.select`: the list of matched
elements' visible texts for each of the 9 candidate selectors, by selector
position. -/
structure Doc where
  select : ℕ → List Str

/-- The results of the 9 candidate selectors of `_parse_accu_15day`, in
listed priority order. -/
def selResults (d : Doc) : List (List Str) := (List.range 9).map d.select

/-- Model of `_parse_accu_15day(html)` from `src/main.py`, as a function of the
document's selector results. -/
def parse_accu_15day (d : Doc) : List ForecastDay :=
  buildDays 0 ((pickCards (selResults d)).take 15)

/-- The spec's worked example text for one forecast card. -/
def persembeText : Str := "Perşembe 24° 15° %20 yağmur".data

/-- A document whose first selector matches 7 cards all carrying the
worked example text. -/
def docPersembe : Doc :=
  { select := fun i => if i = 0 then List.replicate 7 persembeText else [] }

/-- A fill-level pass in which only the two İzmir label rows are found,
with one aggregate cell each: total 200, available 50. -/
def pagesIzmEx : Pages :=
  { allMissing with
    izmToplamRow := some { parentCells := some ["200".data] }
  , izmKullRow := some { parentCells := some ["50".data] } }

/-- The spec's selector-fallback example: the first three candidate
selectors match 3, 5 and 12 elements, the remaining six match none. -/
def docSel : Doc :=
  { select := fun i =>
      if i = 0 then List.replicate 3 []
      else if i = 1 then List.replicate 5 []
      else if i = 2 then List.replicate 12 []
      else [] }

/-- A document in which no candidate selector matches anything. -/
def docNoCards : Doc := { select := fun _ => [] }

/-- A document whose last candidate selector matches a single card. -/
def docOneCard : Doc :=
  { select := fun i => if i = 8 then ["Salı 21° 9° hava".data] else [] }

/-- A document whose first selector matches 7 cards carrying both a high
and a low temperature. -/
def docHL : Doc :=
  { select := fun i =>
      if i = 0 then List.replicate 7 ("Çarşamba 24° 15°".data) else [] }

/-- A card text containing `100%` and no other percent-adjacent digits. -/
def hundredText : Str := "Yağış 100% bekleniyor".data

/-- A document whose first selector matches 7 cards carrying `100%`. -/
def docHundred : Doc :=
  { select := fun i => if i = 0 then List.replicate 7 hundredText else [] }

example : findallDeg persembeText = [24, 15] := by decide
example : searchPrec persembeText = none := by decide
example : searchPrec ("Yağış 100% olasılık".data) = some 0 := by decide
example : searchPrec ("24° 15° %20".data) = none := by decide
example : findallDeg ("-123° x 45°".data) = [23, 45] := by decide
example : (parse_accu_15day docPersembe).length = 7 := by decide
example :
    (parse_accu_15day docPersembe).get? 0 =
      some { day_index := 1, text := persembeText, high_c := some 24
           , low_c := some 15, precip_pct := none } := by decide

theorem cellStep_eq_add_contrib (acc : ℚ) (s : Str) :
    cellStep acc s = acc + cellContrib s := by
  unfold cellStep cellContrib
  by_cases h : s.isEmpty
  · simp [h]
  · simp only [h, if_false, Bool.false_eq_true]
    cases pyFloatOfChars (normCell s) <;> simp

theorem foldl_cellStep (cells : List Str) (a : ℚ) :
    cells.foldl cellStep a = a + (cells.map cellContrib).sum := by
  induction cells generalizing a with
  | nil => simp
  | cons s ts ih =>
    simp only [List.foldl_cons, List.map_cons, List.sum_cons, ih,
      cellStep_eq_add_contrib]
    ring

theorem sum_row_eq_map_sum (cells : List Str) :
    sum_row (some { parentCells := some cells }) =
      (cells.map cellContrib).sum := by
  simpa using foldl_cellStep cells 0

theorem pickCards_cons_of_lt {α : Type} (x : List α) (l : List (List α))
    (hl : l ≠ []) (hx : x.length < 7) :
    pickCards (x :: l) = pickCards l := by
  cases l with
  | nil => exact absurd rfl hl
  | cons s rest => simp [pickCards, Nat.not_le.mpr hx]

theorem pickCards_first_ge {α : Type} :
    ∀ (pre : List (List α)) (r : List α) (post : List (List α)),
      (∀ x ∈ pre, x.length < 7) → 7 ≤ r.length →
      pickCards (pre ++ r :: post) = r := by
  intro pre
  induction pre with
  | nil =>
    intro r post _ h7
    cases post with
    | nil => rfl
    | cons s rest => simp [pickCards, h7]
  | cons x pre ih =>
    intro r post hpre h7
    rw [List.cons_append,
      pickCards_cons_of_lt x (pre ++ r :: post) (by simp) (hpre x (by simp))]
    exact ih r post (fun y hy => hpre y (by simp [hy])) h7

theorem pickCards_all_lt {α : Type} :
    ∀ l : List (List α), (∀ x ∈ l, x.length < 7) →
      pickCards l = l.getLast?.getD [] := by
  intro l
  induction l with
  | nil => intro _; rfl
  | cons x tail ih =>
    intro hall
    cases tail with
    | nil => rfl
    | cons s rest =>
      rw [pickCards_cons_of_lt x (s :: rest) (by simp) (hall x (by simp)),
        List.getLast?_cons_cons]
      exact ih (fun y hy => hall y (by simp [hy]))

theorem buildDays_length (l : List Str) : ∀ i, (buildDays i l).length = l.length := by
  induction l with
  | nil => intro i; rfl
  | cons t ts ih => intro i; simp [buildDays, ih]

theorem buildDays_map_index (l : List Str) :
    ∀ i, (buildDays i l).map ForecastDay.day_index = List.range' (i + 1) l.length := by
  induction l with
  | nil => intro i; rfl
  | cons t ts ih =>
    intro i
    simp [buildDays, List.range'_succ, mkDay, ih]

theorem mem_buildDays {r : ForecastDay} :
    ∀ {i : ℕ} {l : List Str}, r ∈ buildDays i l → ∃ j t, t ∈ l ∧ r = mkDay j t := by
  intro i l
  induction l generalizing i with
  | nil => intro h; simp [buildDays] at h
  | cons t ts ih =>
    intro h
    rcases List.mem_cons.mp h with h1 | h2
    · exact ⟨i, t, by simp, h1⟩
    · obtain ⟨j, u, hu, hr⟩ := ih h2
      exact ⟨j, u, by simp [hu], hr⟩

theorem dig_bounds {c : Char} (h : isDig c = true) :
    48 ≤ c.toNat ∧ c.toNat ≤ 57 := by
  simpa [isDig, Bool.and_eq_true, decide_eq_true_eq] using h

theorem digitsToNat_one_le {c : Char} (h : isDig c = true) : digitsToNat [c] ≤ 9 := by
  obtain ⟨h1, h2⟩ := dig_bounds h
  simp only [digitsToNat, List.foldl_cons, List.foldl_nil]
  omega

theorem digitsToNat_two_le {c d : Char} (hc : isDig c = true) (hd : isDig d = true) :
    digitsToNat [c, d] ≤ 99 := by
  obtain ⟨c1, c2⟩ := dig_bounds hc
  obtain ⟨d1, d2⟩ := dig_bounds hd
  simp only [digitsToNat, List.foldl_cons, List.foldl_nil]
  omega

theorem matchPrec_le {cs : Str} {v : ℕ} (h : matchPrec cs = some v) : v ≤ 99 := by
  cases cs with
  | nil => simp [matchPrec] at h
  | cons d1 rest =>
    cases rest with
    | nil => simp [matchPrec] at h
    | cons c tail =>
      unfold matchPrec at h
      by_cases hd1 : isDig d1 = true
      · simp only [hd1, if_true] at h
        by_cases hc : c = '%'
        · simp only [hc, if_pos rfl] at h
          obtain rfl : digitsToNat [d1] = v := by injection h
          exact le_trans (digitsToNat_one_le hd1) (by omega)
        · simp only [if_neg hc] at h
          by_cases hcd : isDig c = true
          · simp only [hcd, if_true] at h
            cases tail with
            | nil => simp at h
            | cons e tail2 =>
              by_cases he : e = '%'
              · simp only [he, if_pos rfl] at h
                obtain rfl : digitsToNat [d1, c] = v := by injection h
                exact digitsToNat_two_le hd1 hcd
              · simp [he] at h
          · simp [hcd] at h
      · simp [hd1] at h

theorem searchPrec_le : ∀ {cs : Str} {v : ℕ}, searchPrec cs = some v → v ≤ 99 := by
  intro cs
  induction cs with
  | nil => intro v h; simp [searchPrec] at h
  | cons c rest ih =>
    intro v h
    unfold searchPrec at h
    cases hm : matchPrec (c :: rest) with
    | some w =>
      rw [hm] at h
      obtain rfl : w = v := by injection h
      exact matchPrec_le hm
    | none =>
      rw [hm] at h
      exact ih h

/-- C1: for every fill-level run, the orchestrator's result map has exactly
one entry per fixed city — its key list is exactly the four distinct city
names — and when all four per-source DOM lookups find nothing, every
city's value is 0.0; no city is ever omitted. -/
theorem scrape_levels_complete (p : Pages) :
    (scrape_levels p).map Prod.fst = [istName, burName, izmName, ankName] ∧
    [istName, burName, izmName, ankName].Nodup ∧
    scrape_levels allMissing =
      [(istName, 0), (burName, 0), (izmName, 0), (ankName, 0)] :=
  ⟨rfl, by decide, by decide⟩

/-- C2: the Forecast Extractor tries the candidate selectors in listed
priority order and uses the first selector yielding at least 7 elements;
when no selector reaches 7, it uses whatever the last-tried selector
yielded.  Stated over any split of the selector results into earlier
selectors all below the threshold, a distinguished selector, and the
rest. -/
theorem selector_threshold_policy (d : Doc) (pre post : List (List Str))
    (r : List Str) (hsplit : selResults d = pre ++ r :: post)
    (hpre : ∀ x ∈ pre, x.length < 7) :
    (7 ≤ r.length → pickCards (selResults d) = r) ∧
    (post = [] → pickCards (selResults d) = r) := by
  rw [hsplit]
  refine ⟨fun h7 => pickCards_first_ge pre r post hpre h7, fun hpost => ?_⟩
  subst hpost
  by_cases h7 : 7 ≤ r.length
  · exact pickCards_first_ge pre r [] hpre h7
  · rw [pickCards_all_lt (pre ++ [r]) ?hall]
    · simp
    case hall =>
      intro x hx
      rcases List.mem_append.mp hx with h | h
      · exact hpre x h
      · simp only [List.mem_singleton] at h
        subst h
        omega

/-- Witness for C2, at the spec's example: selectors matching 3, 5 and 12
elements — the third selector's 12 matches are used. -/
theorem selector_threshold_policy_witness :
    pickCards (selResults docSel) = List.replicate 12 [] :=
  (selector_threshold_policy docSel
      [List.replicate 3 [], List.replicate 5 []]
      [[], [], [], [], [], []]
      (List.replicate 12 [])
      (by decide) (by decide)).1 (by decide)

/-- C3 (counterexample): on a card whose visible text is
`Perşembe 24° 15° %20 yağmur`, the percent pattern — which requires the
digits to precede the percent sign — does not match the percent-prefixed
token `%20`, so the extractor does NOT produce `precip_pct = 20`. -/
theorem persembe_precip_counterexample :
    ¬ ((parse_accu_15day docPersembe).get? 0).map ForecastDay.precip_pct =
        some (some 20) := by decide

/-- C3 (amended): on that card the extractor produces `high_c = 24`,
`low_c = 15`, and `precip_pct = null` — the percent-sign-suffixed number
pattern finds no match in the percent-prefixed Turkish notation. -/
theorem persembe_card_fields :
    (parse_accu_15day docPersembe).get? 0 =
      some { day_index := 1, text := persembeText, high_c := some 24
           , low_c := some 15, precip_pct := none } := by decide

/-- C4: the Percentage Parser is total (modelled as a Lean function into
`ℚ`, never raising), returns the caller-supplied default on a `None`-like
input, and returns exactly the default whenever the cleaned text fails to
parse as a float. -/
theorem parse_percentage_never_raises (t : Str) (d : ℚ)
    (hfail : pyFloatOfChars (cleanPct t) = none) :
    parse_percentage none d = d ∧ parse_percentage (some t) d = d := by
  refine ⟨rfl, ?_⟩
  simp only [parse_percentage]
  rw [hfail]

/-- Witness for C4, at the malformed input `a1,b%` and default 5. -/
theorem parse_percentage_never_raises_witness :
    parse_percentage none 5 = 5 ∧
    parse_percentage (some ("a1,b%".data)) 5 = 5 :=
  parse_percentage_never_raises ("a1,b%".data) 5 (by decide)

/-- C5: on every well-formed input — one whose text, after stripping
percent signs, normalizing the decimal comma and trimming, parses as a
float — the Percentage Parser returns that parsed value; in particular on
`73,40%` it returns 73.40 (within 1e-9). -/
theorem parse_percentage_wellformed (t : Str) (d v : ℚ)
    (hok : pyFloatOfChars (cleanPct t) = some v) :
    parse_percentage (some t) d = v ∧
    |parse_percentage (some ("73,40%".data)) d - 73.4| ≤ 1 / 1000000000 := by
  constructor
  · simp only [parse_percentage]
    rw [hok]
  · have h2 : pyFloatOfChars (cleanPct ("73,40%".data)) =
        some (mkRat 7340 100) := by decide
    simp only [parse_percentage]
    rw [h2]
    norm_num [Rat.mkRat_eq_div]

/-- Witness for C5 at the input `73,40%`. -/
theorem parse_percentage_wellformed_witness :
    parse_percentage (some ("73,40%".data)) 0 = mkRat 7340 100 ∧
    |parse_percentage (some ("73,40%".data)) 0 - 73.4| ≤ 1 / 1000000000 :=
  parse_percentage_wellformed ("73,40%".data) 0 (mkRat 7340 100) (by decide)

/-- C6: the Row-Sum Aggregator sums exactly the aggregate-class cells whose
text parses after thousands-dot removal and decimal-comma normalization
(each cell contributes its parsed value, unparseable and empty cells
contribute nothing); the spec's example row sums to 1999.5, and an absent
label element or absent enclosing row yields 0.0. -/
theorem sum_row_aggregation (cells : List Str) :
    sum_row (some { parentCells := some cells }) =
      (cells.map cellContrib).sum ∧
    sum_row
        (some { parentCells := some ["1.234,5".data, "bad".data, "765,0".data] }) =
      1999.5 ∧
    sum_row none = 0 ∧
    sum_row (some { parentCells := none }) = 0 := by
  refine ⟨sum_row_eq_map_sum cells, ?_, rfl, rfl⟩
  rw [sum_row_eq_map_sum,
    show List.map cellContrib ["1.234,5".data, "bad".data, "765,0".data] =
      [mkRat 12345 10, 0, mkRat 7650 10] from by decide]
  norm_num [List.sum_cons, List.sum_nil, Rat.mkRat_eq_div]

/-- C7: for the ratio-based İzmir source, a zero total-volume row sum gives
percentage 0.0 (the truthiness guard prevents any division by zero — the
model divides only in the nonzero branch); a nonzero total gives
`available / total * 100` rounded to 2 decimals. -/
theorem izmir_ratio_guard (p : Pages) :
    (sum_row p.izmToplamRow = 0 →
      List.lookup izmName (scrape_levels p) = some 0) ∧
    (sum_row p.izmToplamRow ≠ 0 →
      List.lookup izmName (scrape_levels p) =
        some (pyRound2 (sum_row p.izmKullRow / sum_row p.izmToplamRow * 100))) := by
  have e1 : (izmName == istName) = false := by decide
  have e2 : (izmName == burName) = false := by decide
  have e3 : (izmName == izmName) = true := by decide
  have hlk : List.lookup izmName (scrape_levels p) =
      some (izmir_pct (sum_row p.izmToplamRow) (sum_row p.izmKullRow)) := by
    simp only [scrape_levels, List.lookup, e1, e2, e3]
  constructor
  · intro h0
    rw [hlk]
    unfold izmir_pct
    rw [if_pos h0]
  · intro hne
    rw [hlk]
    unfold izmir_pct
    rw [if_neg hne]

/-- Witness for C7: a run with no İzmir rows (total 0) gives 0, and a run
with total 200 and available 50 gives 25.00. -/
theorem izmir_ratio_guard_witness :
    List.lookup izmName (scrape_levels allMissing) = some 0 ∧
    List.lookup izmName (scrape_levels pagesIzmEx) = some 25 := by
  constructor
  · exact (izmir_ratio_guard allMissing).1 (by decide)
  · have hs : sum_row pagesIzmEx.izmToplamRow = 200 := by
      rw [show pagesIzmEx.izmToplamRow =
            some { parentCells := some ["200".data] } from rfl,
        sum_row_eq_map_sum,
        show List.map cellContrib ["200".data] = [mkRat 200 1] from by decide]
      norm_num [List.sum_cons, List.sum_nil, Rat.mkRat_eq_div]
    have hk : sum_row pagesIzmEx.izmKullRow = 50 := by
      rw [show pagesIzmEx.izmKullRow =
            some { parentCells := some ["50".data] } from rfl,
        sum_row_eq_map_sum,
        show List.map cellContrib ["50".data] = [mkRat 50 1] from by decide]
      norm_num [List.sum_cons, List.sum_nil, Rat.mkRat_eq_div]
    have h := (izmir_ratio_guard pagesIzmEx).2 (by rw [hs]; norm_num)
    rw [h, hs, hk]
    norm_num [pyRound2, roundHalfEven]

/-- C8: for every input document the Forecast Extractor emits at most 15
records, with day indices exactly 1, 2, … in match order, each stored text
truncated to at most 200 characters, and each record's optional fields
exactly what the patterns find on its own card (null when nothing is
found, never a guessed value); zero matching cards yield the empty list. -/
theorem forecast_shape_invariants (d : Doc) :
    (parse_accu_15day d).length ≤ 15 ∧
    (parse_accu_15day d).map ForecastDay.day_index =
      List.range' 1 (parse_accu_15day d).length ∧
    (∀ r ∈ parse_accu_15day d, r.text.length ≤ 200 ∧
      ∃ t ∈ pickCards (selResults d), r.text = t.take 200 ∧
        r.high_c = (findallDeg t).get? 0 ∧
        r.low_c = (findallDeg t).get? 1 ∧
        r.precip_pct = (searchPrec t).map (fun n => (n : ℤ))) ∧
    (pickCards (selResults d) = [] → parse_accu_15day d = []) := by
  refine ⟨?_, ?_, ?_, ?_⟩
  · unfold parse_accu_15day
    rw [buildDays_length, List.length_take]
    exact Nat.min_le_left _ _
  · unfold parse_accu_15day
    rw [buildDays_length, buildDays_map_index]
  · intro r hr
    unfold parse_accu_15day at hr
    obtain ⟨j, t, ht, rfl⟩ := mem_buildDays hr
    have ht' : t ∈ pickCards (selResults d) := List.mem_of_mem_take ht
    refine ⟨?_, t, ht', rfl, rfl, rfl, rfl⟩
    show (t.take 200).length ≤ 200
    rw [List.length_take]
    exact Nat.min_le_left _ _
  · intro h
    unfold parse_accu_15day
    rw [h]
    rfl

/-- Witness for C8: the all-selectors-empty document yields the empty list,
and a one-card document's record has text within the bound. -/
theorem forecast_shape_invariants_witness :
    parse_accu_15day docNoCards = [] ∧
    (mkDay 0 ("Salı 21° 9° hava".data)).text.length ≤ 200 := by
  refine ⟨(forecast_shape_invariants docNoCards).2.2.2 (by decide), ?_⟩
  exact ((forecast_shape_invariants docOneCard).2.2.1
    (mkDay 0 ("Salı 21° 9° hava".data)) (by decide)).1

/-- C9: in every record the Forecast Extractor produces, a non-null low
temperature forces a non-null high temperature: the first degree-sign
number always becomes the high, so a low can never appear alone. -/
theorem low_requires_high (d : Doc) (r : ForecastDay)
    (hmem : r ∈ parse_accu_15day d) (hlow : r.low_c.isSome = true) :
    r.high_c.isSome = true := by
  unfold parse_accu_15day at hmem
  obtain ⟨j, t, ht, rfl⟩ := mem_buildDays hmem
  rcases hfd : findallDeg t with _ | ⟨a, rest⟩
  · exact absurd hlow (by simp [mkDay, hfd])
  · simp [mkDay, hfd]

/-- Witness for C9, on a card carrying `24°` and `15°`. -/
theorem low_requires_high_witness :
    (mkDay 0 ("Çarşamba 24° 15°".data)).high_c.isSome = true :=
  low_requires_high docHL (mkDay 0 ("Çarşamba 24° 15°".data))
    (by decide) (by decide)

/-- C10: every non-null precipitation value the Forecast Extractor produces
lies between 0 and 99 — the pattern captures at most two digits before the
percent sign — and on a card text containing `100%` (with no earlier
two-digit percent token) the extracted value is 0 (the match is the
trailing `00`), never 100. -/
theorem precip_pct_bounds (d : Doc) (r : ForecastDay) (v : ℤ)
    (hmem : r ∈ parse_accu_15day d) (hv : r.precip_pct = some v) :
    (0 ≤ v ∧ v ≤ 99) ∧
    ((parse_accu_15day docHundred).get? 0).map ForecastDay.precip_pct =
      some (some 0) := by
  refine ⟨?_, by decide⟩
  unfold parse_accu_15day at hmem
  obtain ⟨j, t, ht, rfl⟩ := mem_buildDays hmem
  have hp : (searchPrec t).map (fun n => (n : ℤ)) = some v := hv
  cases hsp : searchPrec t with
  | none => rw [hsp] at hp; simp at hp
  | some n =>
    rw [hsp] at hp
    obtain rfl : (n : ℤ) = v := by simpa using hp
    exact ⟨by positivity, by exact_mod_cast searchPrec_le hsp⟩

/-- Witness for C10, through the `100%` card: the extracted value 0 indeed
lies in the bounds. -/
theorem precip_pct_bounds_witness : (0 : ℤ) ≤ 0 ∧ (0 : ℤ) ≤ 99 :=
  (precip_pct_bounds docHundred (mkDay 0 hundredText) 0
    (by decide) (by decide)).1
